import Mathlib

/-!
Verification development for the troll-swap repository: a client-side
token-swap web application with a Jupiter reverse-proxy API route.

The embedding below models, from the TypeScript sources:
  * the Jupiter proxy route (`src/app/api/jupiter/[...path]/route.ts`),
    which streams the upstream body, and the buffering variant of the
    same route found in the unnamed source file;
  * the withdraw, swap, quote-retry and balance-subscription logic of
    `src/app/page.tsx`;
  * the `getMintDecimals` helper, in both of its copies.

JavaScript numbers are modelled as exact rationals extended with
NaN and the two infinities; JS `Headers` objects are modelled as
association lists with lowercased keys.
-/

namespace TrollSwap

/-! ## Headers model (JS `Headers`: case-insensitive, insertion order) -/

/-- Association list of header entries; keys are stored lowercased. -/
abbrev HeaderMap := List (String × String)

/-- The lower-casing JS `Headers` applies to header names. -/
def lowerKey (s : String) : String := String.mk (s.data.map Char.toLower)

/-- `Headers.set`: remove any entry with the (case-insensitive) key, then
append the new entry. -/
def hset (h : HeaderMap) (k v : String) : HeaderMap :=
  (h.filter (fun p => p.1 != lowerKey k)) ++ [(lowerKey k, v)]

/-- `Headers.get`: first entry with the (case-insensitive) key. -/
def hget (h : HeaderMap) (k : String) : Option String :=
  (h.find? (fun p => p.1 == lowerKey k)).map (fun p => p.2)

/-- `Headers.delete`. -/
def hdel (h : HeaderMap) (k : String) : HeaderMap :=
  h.filter (fun p => p.1 != lowerKey k)

/-- `Headers.has`. -/
def hhas (h : HeaderMap) (k : String) : Bool :=
  (hget h k).isSome

/-- `new Headers(raw)`: keys are normalised to lower case. -/
def hnorm (h : HeaderMap) : HeaderMap :=
  h.map (fun p => (lowerKey p.1, p.2))

/-! ## The Jupiter proxy route -/

/-- `UPSTREAM_BASE` with `JUPITER_UPSTREAM_URL` unset: the default with any
trailing slash stripped. -/
def UPSTREAM_BASE : String := "https://lite-api.jup.ag/swap/v1"

/-- The `CORS_HEADERS` record, in `Object.entries` order. -/
def CORS_HEADERS : List (String × String) :=
  [("Access-Control-Allow-Origin", "*"),
   ("Access-Control-Allow-Methods", "GET,POST,OPTIONS"),
   ("Access-Control-Allow-Headers", "Content-Type, Authorization, X-Requested-With"),
   ("Access-Control-Max-Age", "86400")]

/-- `applyCors`: set every CORS header on the given `Headers`. -/
def applyCors (h : HeaderMap) : HeaderMap :=
  CORS_HEADERS.foldl (fun acc p => hset acc p.1 p.2) h

/-- An incoming request as seen by the route handler: method, the
`[...path]` segments, the query parameters of `request.nextUrl`, the
request headers, and the request body text. -/
structure ProxyRequest where
  method : String
  segments : List String
  query : List (String × String)
  headers : HeaderMap
  body : String
deriving DecidableEq, Repr

/-- The upstream URL built by the proxy: base, joined path segments, and
the appended query parameters. -/
structure TargetUrl where
  base : String
  pathStr : String
  params : List (String × String)
deriving DecidableEq, Repr

/-- The request the proxy sends upstream. -/
structure UpstreamRequest where
  url : TargetUrl
  method : String
  headers : HeaderMap
  body : Option String
deriving DecidableEq, Repr

/-- Outcome of the upstream `fetch`: a response (status, statusText,
headers, body text) or a thrown error (`some msg` for an `Error` with a
message, `none` for a non-`Error` value). -/
inductive UpstreamOutcome where
  | ok (status : Nat) (statusText : String) (headers : HeaderMap) (body : String)
  | thrown (message : Option String)
deriving DecidableEq, Repr

/-- A `Response` produced by the route. -/
structure ProxyResponse where
  status : Nat
  statusText : String
  headers : HeaderMap
  body : String
deriving DecidableEq, Repr

/-- The header names the proxy forwards upstream. -/
def forwardHeaders : List String := ["content-type", "accept", "authorization"]

/-- The headers the proxy sends upstream: each whitelisted header whose
value is truthy (present and non-empty) is copied, and `accept` defaults
to `application/json`. -/
def buildUpstreamHeaders (req : ProxyRequest) : HeaderMap :=
  let h := forwardHeaders.foldl
    (fun acc name =>
      match hget req.headers name with
      | some v => if v ≠ "" then hset acc name v else acc
      | none => acc) []
  if hhas h "accept" then h else hset h "accept" "application/json"

/-- The body the proxy sends upstream: the request body text, when the
method is not GET, HEAD or OPTIONS and the text is non-empty. -/
def buildUpstreamBody (req : ProxyRequest) : Option String :=
  if req.method ≠ "GET" ∧ req.method ≠ "HEAD" ∧ req.method ≠ "OPTIONS" ∧ req.body ≠ ""
  then some req.body else none

/-- The upstream request assembled by `proxy` before calling `fetch`. -/
def buildUpstreamRequest (req : ProxyRequest) : UpstreamRequest :=
  { url := { base := UPSTREAM_BASE,
             pathStr := String.intercalate "/" req.segments,
             params := req.query },
    method := req.method,
    headers := buildUpstreamHeaders req,
    body := buildUpstreamBody req }

/-- `JSON.stringify` of the 502 error payload (the error message is
interpolated verbatim). -/
def jupiterErrorBody (msg : String) : String :=
  "\x7b\"error\":\"Jupiter proxy failed\",\"message\":\"" ++ msg ++ "\"\x7d"

namespace StreamingProxy

/-- Response side of `proxy` in `route.ts`: on success the upstream
headers (plus CORS) and streamed body are forwarded; on status >= 400 the
`content-encoding` and `content-length` headers are deleted first; a
thrown fetch becomes a 502 JSON error. -/
def proxyResponse (out : UpstreamOutcome) : ProxyResponse :=
  match out with
  | .ok status statusText hdrs body =>
      let responseHeaders := applyCors (hnorm hdrs)
      if 400 ≤ status then
        { status := status, statusText := statusText,
          headers := hdel (hdel responseHeaders "content-encoding") "content-length",
          body := body }
      else
        { status := status, statusText := statusText,
          headers := responseHeaders, body := body }
  | .thrown m =>
      let message := m.getD "Unknown proxy error"
      { status := 502, statusText := "",
        headers := applyCors (hset [] "Content-Type" "application/json"),
        body := jupiterErrorBody message }

/-- The whole `proxy` function: what is sent upstream and what is
returned to the client. -/
def proxy (req : ProxyRequest) (out : UpstreamOutcome) :
    UpstreamRequest × ProxyResponse :=
  (buildUpstreamRequest req, proxyResponse out)

/-- The exported `OPTIONS` handler: 204 with only the CORS headers. -/
def optionsHandler : ProxyResponse :=
  { status := 204, statusText := "", headers := applyCors [], body := "" }

/-- Next.js routing for this route file: GET and POST go to `proxy`,
OPTIONS to the `OPTIONS` handler, anything else is not handled. -/
def routeHandle (req : ProxyRequest) (out : UpstreamOutcome) : Option ProxyResponse :=
  if req.method = "OPTIONS" then some optionsHandler
  else if req.method = "GET" ∨ req.method = "POST" then some (proxyResponse out)
  else none

end StreamingProxy

namespace BufferingProxy

/-- Response side of `proxy` in the unnamed source file: the upstream
body is buffered and `content-encoding` / `content-length` are deleted on
every forwarded response, success or error. -/
def proxyResponse (out : UpstreamOutcome) : ProxyResponse :=
  match out with
  | .ok status statusText hdrs body =>
      let responseHeaders :=
        hdel (hdel (applyCors (hnorm hdrs)) "content-encoding") "content-length"
      if 400 ≤ status then
        { status := status, statusText := statusText,
          headers := responseHeaders, body := body }
      else
        { status := status, statusText := statusText,
          headers := responseHeaders, body := body }
  | .thrown m =>
      let message := m.getD "Unknown proxy error"
      { status := 502, statusText := "",
        headers := applyCors (hset [] "Content-Type" "application/json"),
        body := jupiterErrorBody message }

/-- The whole buffering `proxy`: upstream request and client response.
The upstream request is assembled by the same code as in `route.ts`. -/
def proxy (req : ProxyRequest) (out : UpstreamOutcome) :
    UpstreamRequest × ProxyResponse :=
  (buildUpstreamRequest req, proxyResponse out)

end BufferingProxy

/-! ## JavaScript numbers

Modelled as exact rationals extended with NaN and the infinities. -/

/-- A JavaScript number. -/
inductive JsNum where
  | nan
  | inf
  | ninf
  | num (q : ℚ)
deriving DecidableEq, Repr

/-- `Math.max(0, x)`. -/
def jsMax0 : JsNum → JsNum
  | .nan => .nan
  | .inf => .inf
  | .ninf => .num 0
  | .num q => .num (max q 0)

/-- Multiplication by a positive integer constant (`* LAMPORTS_PER_SOL`,
`* 10 ** decimals`). -/
def jsMulPos (x : JsNum) (n : ℕ) : JsNum :=
  match x with
  | .nan => .nan
  | .inf => .inf
  | .ninf => .ninf
  | .num q => .num (q * n)

/-- `Math.floor`. -/
def jsFloor : JsNum → JsNum
  | .nan => .nan
  | .inf => .inf
  | .ninf => .ninf
  | .num q => .num ⌊q⌋

/-- `Number.isFinite`. -/
def jsIsFinite : JsNum → Bool
  | .num _ => true
  | _ => false

/-! ## Withdraw SOL (`sendWithdrawSol`, `refreshWithdrawFee`) -/

/-- `LAMPORTS_PER_SOL` from web3.js. -/
def LAMPORTS_PER_SOL : ℕ := 1000000000

/-- `SOL_FEE_BUFFER`: safety cushion for fees, in SOL. -/
def SOL_FEE_BUFFER : ℚ := 0.004

/-- JS `String.prototype.trim`: strip leading and trailing whitespace,
modelled over the character list. -/
def trimWs (s : String) : String :=
  String.mk (((s.data.dropWhile Char.isWhitespace).reverse.dropWhile Char.isWhitespace).reverse)

/-- `Math.floor(Math.max(0, parseFloat(wdSol || '0')) * LAMPORTS_PER_SOL)`:
the entered withdrawal amount converted to lamports. -/
def lamportsOfInput (parseFloat : String → JsNum) (wdSol : String) : JsNum :=
  jsFloor (jsMulPos (jsMax0 (parseFloat (if wdSol = "" then "0" else wdSol))) LAMPORTS_PER_SOL)

/-- The validation `!Number.isFinite(lam) || lam <= 0` applied to a
converted amount: `some` of the integer value exactly when it is finite
and strictly positive. -/
def positiveLamports : JsNum → Option ℤ
  | .num q => if q ≤ 0 then none else some ⌊q⌋
  | _ => none

/-- External behaviour the withdraw flow depends on: `new PublicKey`
parsing (`none` models a throw), `parseFloat`, and the fee estimate
returned by `estimateSolTransferFee` (`none` models its `null`). -/
structure WithdrawEnv where
  parseAddress : String → Option String
  parseFloat : String → JsNum
  estimateFee : Option ℤ

/-- The component state read by the withdraw flow.  `solBalance` is the
React state set from `lamports / 1e9`, always a finite number. -/
structure WithdrawState where
  publicKey : Option String
  wdTo : String
  wdSol : String
  wdFeeLamports : Option ℤ
  solBalance : ℚ

/-- What `sendWithdrawSol` does: shows an error toast, or submits a
transfer of `lamports` to `toPk` via `sendTransaction`. -/
inductive WithdrawAction where
  | toastError (msg : String)
  | submit (toPk : String) (lamports : ℤ)
deriving DecidableEq, Repr

/-- `sendWithdrawSol` up to the point a transaction is handed to
`sendTransaction`.  The interpolated needed amount of the insufficient
balance toast is elided from the message. -/
def sendWithdrawSol (env : WithdrawEnv) (s : WithdrawState) : WithdrawAction :=
  match s.publicKey with
  | none => .toastError "Connect your wallet first."
  | some _ =>
    match env.parseAddress (trimWs s.wdTo) with
    | none => .toastError "Invalid Solana address."
    | some toPk =>
      match positiveLamports (lamportsOfInput env.parseFloat s.wdSol) with
      | none => .toastError "Enter a valid SOL amount."
      | some amountLamports =>
        match (match s.wdFeeLamports with
               | some f => some f
               | none => env.estimateFee) with
        | none => .toastError "Could not estimate network fee. Try again."
        | some feeLamports =>
          let buffer : ℤ := ⌈SOL_FEE_BUFFER * (LAMPORTS_PER_SOL : ℚ)⌉
          let need : ℤ := amountLamports + feeLamports + buffer
          let haveLamports : ℤ := ⌊s.solBalance * (LAMPORTS_PER_SOL : ℚ)⌋
          if haveLamports < need then
            .toastError "Not enough SOL to cover amount + fee."
          else
            .submit toPk amountLamports

/-- `refreshWithdrawFee`: the value `wdFeeLamports` ends up with
(`none` when no estimation happens or the estimate fails). -/
def refreshWithdrawFee (env : WithdrawEnv) (s : WithdrawState) : Option ℤ :=
  match s.publicKey with
  | none => none
  | some _ =>
    match positiveLamports (lamportsOfInput env.parseFloat s.wdSol) with
    | none => none
    | some _ =>
      match env.parseAddress (trimWs s.wdTo) with
      | none => none
      | some _ => env.estimateFee

/-! ## Quote retry helper (`fetchQuoteWithRetry`) -/

/-- Truthiness of one attempt outcome: the fetch returned (rather than
threw) a non-null quote. -/
def isTruthyQuote {Q : Type} : Except String (Option Q) → Bool
  | .ok (some _) => true
  | _ => false

/-- Trace of one `fetchQuoteWithRetry` run: the overall result, the
attempt indices at which `doFetch` was invoked, and the successive
`setTimeout` delays awaited. -/
structure RetryTrace (Q : Type) where
  result : Except String Q
  calls : List ℕ
  sleeps : List ℕ

/-- The retry loop, attempt `i` next, `remaining` iterations left,
`lastErr` the last caught error so far.  A truthy quote returns
immediately; otherwise the loop sleeps `delayMs * (i + 1)` and goes on;
when the budget is exhausted it throws `lastErr` or a fresh error. -/
def retryLoop {Q : Type} (doFetch : ℕ → Except String (Option Q)) (delayMs : ℕ) :
    (i remaining : ℕ) → (lastErr : Option String) → RetryTrace Q
  | _, 0, lastErr => ⟨.error (lastErr.getD "Quote failed after retries"), [], []⟩
  | i, r + 1, lastErr =>
    match doFetch i with
    | .ok (some q) => ⟨.ok q, [i], []⟩
    | .ok none =>
        let rest := retryLoop doFetch delayMs (i + 1) r lastErr
        ⟨rest.result, i :: rest.calls, delayMs * (i + 1) :: rest.sleeps⟩
    | .error e =>
        let rest := retryLoop doFetch delayMs (i + 1) r (some e)
        ⟨rest.result, i :: rest.calls, delayMs * (i + 1) :: rest.sleeps⟩

/-- `fetchQuoteWithRetry(doFetch, tries, delayMs)`.  The source defaults
are `tries = 3` and `delayMs = 450`. -/
def fetchQuoteWithRetry {Q : Type} (doFetch : ℕ → Except String (Option Q))
    (tries delayMs : ℕ) : RetryTrace Q :=
  retryLoop doFetch delayMs 0 tries none

/-- The last error thrown among attempts `0 .. n-1` (the value `lastErr`
holds after the loop has run them all). -/
def lastErrorAmong {Q : Type} (doFetch : ℕ → Except String (Option Q)) : ℕ → Option String
  | 0 => none
  | n + 1 =>
    match doFetch n with
    | .error e => some e
    | _ => lastErrorAmong doFetch n

/-! ## The swap flow (`doSwap`) and the token selectors -/

/-- `minUiForMint`: sane minimum UI amount for a mint. -/
def minUiForMint (solMint mintStr : String) : ℚ :=
  if mintStr = solMint then 0.001 else 1

/-- The option values of the From selector, in document order. -/
def fromOptions (solMint trollMint : String) : List String := [solMint, trollMint]

/-- The option values of the To selector, in document order. -/
def toOptions (solMint trollMint : String) : List String := [trollMint, solMint]

/-- `amountAtomic` (the `useMemo`):
`Math.floor((Number.isFinite(n) && n > 0 ? n : 0) * 10 ** inputDecimals)`. -/
def amountAtomic (parseFloat : String → JsNum) (amountStr : String)
    (inputDecimals : ℕ) : ℤ :=
  match parseFloat (if amountStr = "" then "0" else amountStr) with
  | .num q => if 0 < q then ⌊q * ((10 : ℚ) ^ inputDecimals)⌋ else 0
  | _ => 0

/-- Observable steps of one `doSwap` run. -/
inductive SwapEvent where
  | toast (kind message : String)
  | quoteFetch
  | swapTxFetch
  | txSend
deriving DecidableEq, Repr

/-- External behaviour `doSwap` depends on: `parseFloat`, the result of
`tryFetchQuoteSafe` (`none` models its `null`, with `quoteFailToast` the
error toast it pushes via `onError` when it fails with a response or
message), `fetchSwapTransaction`, and `sendTransaction`. -/
structure SwapEnv where
  parseFloat : String → JsNum
  quoteFetchResult : Option String
  quoteFailToast : Option String
  swapTxResult : Except String String
  sendResult : Except String String

/-- The component state read by `doSwap`. -/
structure SwapState where
  solMint : String
  publicKey : Option String
  amountStr : String
  inMintStr : String
  outMintStr : String
  inputDecimals : ℕ
  quoteResponseMeta : Option String

/-- The `Amount too small` toast message, interpolations included. -/
def amountTooSmallMsg (solMint inMintStr : String) : String :=
  "Amount too small. Try at least " ++
    (if inMintStr = solMint then "0.001 SOL" else "1 ") ++ "."

/-- Tail of `doSwap` once a quote is in hand: build the swap transaction
and send it. -/
def doSwapWithQuote (env : SwapEnv) : List SwapEvent :=
  .swapTxFetch ::
    match env.swapTxResult with
    | .error _ => [.toast "error" "Failed to build swap transaction. Try again."]
    | .ok _ =>
      .txSend ::
        match env.sendResult with
        | .ok _ => [.toast "success" "Swap sent! Click to view on Solscan."]
        | .error _ => [.toast "error" "Swap failed to send."]

/-- `doSwap` as the list of its observable steps, in order. -/
def doSwap (env : SwapEnv) (s : SwapState) : List SwapEvent :=
  match s.publicKey with
  | none => [.toast "error" "Connect your wallet first."]
  | some _ =>
    match env.parseFloat (if s.amountStr = "" then "0" else s.amountStr) with
    | .num uiAmount =>
      if uiAmount ≤ 0 then [.toast "error" "Enter an amount greater than 0."]
      else if uiAmount < minUiForMint s.solMint s.inMintStr then
        [.toast "error" (amountTooSmallMsg s.solMint s.inMintStr)]
      else if amountAtomic env.parseFloat s.amountStr s.inputDecimals = 0 then
        [.toast "error" "Amount resolves to 0 in base units. Increase it slightly."]
      else if s.inMintStr = s.outMintStr then
        [.toast "error" "Select two different tokens."]
      else
        .toast "info" "Building route…" ::
          match s.quoteResponseMeta with
          | some _ => doSwapWithQuote env
          | none =>
            .quoteFetch ::
              match env.quoteFetchResult with
              | some _ => doSwapWithQuote env
              | none =>
                match env.quoteFailToast with
                | some m => [.toast "error" m]
                | none => []
    | _ => [.toast "error" "Enter an amount greater than 0."]

/-! ## WebSocket subscription effect with fast-poll fallback -/

/-- Environment of one run of the subscription effect: whether
`NEXT_PUBLIC_WS_URL` is set, the connected wallet, the outcome of each
`connection.onAccountChange` call (`Except.error` models a throw), and
the discovered TROLL token account before and after the refresh the
effect may trigger. -/
structure WsEnv where
  wsConfigured : Bool
  publicKey : Option String
  solSubResult : Except Unit ℕ
  trollAcctBefore : Option String
  trollAcctAfterRefresh : Option String
  trollSubResult : Except Unit ℕ

/-- State the effect leaves behind: the two subscription ids and the
fast-poll interval period (in ms), when one was installed. -/
structure WsEffectState where
  solSubId : Option ℕ
  trollSubId : Option ℕ
  fastPollMs : Option ℕ
deriving DecidableEq, Repr

/-- The TROLL account the effect sees when it subscribes: the one
already discovered, else the one `refreshBalances` discovers. -/
def wsEffectiveTrollAcct (env : WsEnv) : Option String :=
  match env.trollAcctBefore with
  | some a => some a
  | none => env.trollAcctAfterRefresh

/-- The subscription attempt threw: either `onAccountChange` for the
wallet account threw, or it succeeded and the TROLL-account subscription
was attempted and threw. -/
def wsSubscribeThrew (env : WsEnv) : Bool :=
  match env.solSubResult with
  | .error _ => true
  | .ok _ =>
    (wsEffectiveTrollAcct env).isSome &&
      (match env.trollSubResult with
       | .error _ => true
       | .ok _ => false)

/-- One run of the subscription effect (`fastPollRef` starts `null`). -/
def wsEffectSetup (env : WsEnv) : WsEffectState :=
  if env.wsConfigured = false ∨ env.publicKey = none then ⟨none, none, none⟩
  else
    match env.solSubResult with
    | .error _ => ⟨none, none, some 3000⟩
    | .ok sid =>
      match wsEffectiveTrollAcct env with
      | none => ⟨some sid, none, none⟩
      | some _ =>
        match env.trollSubResult with
        | .ok tid => ⟨some sid, some tid, none⟩
        | .error _ => ⟨some sid, none, some 3000⟩

/-- What the effect cleanup does. -/
structure WsCleanup where
  removedListeners : List ℕ
  clearedInterval : Bool
  fastPollAfter : Option ℕ
deriving DecidableEq, Repr

/-- The effect cleanup: remove whichever account-change listeners were
installed, and clear and null out the fast-poll interval. -/
def wsEffectCleanup (st : WsEffectState) : WsCleanup :=
  { removedListeners := st.solSubId.toList ++ st.trollSubId.toList,
    clearedInterval := st.fastPollMs.isSome,
    fastPollAfter := none }

/-! ## `getMintDecimals`, both copies -/

/-- A JSON value, as returned inside a parsed account. -/
inductive Js where
  | jsNull
  | jsNum (q : ℚ)
  | jsStr (s : String)
  | jsBool (b : Bool)
  | jsArr (elems : List Js)
  | jsObj (fields : List (String × Js))

/-- Property lookup on an object field list. -/
def jsLookup (fields : List (String × Js)) (k : String) : Option Js :=
  (fields.find? (fun p => p.1 = k)).map (fun p => p.2)

/-- Optional chaining `x?.k`: a value only when `x` is an object that
has the property; `none` models `undefined`. -/
def optChain : Option Js → String → Option Js
  | some (.jsObj fields), k => jsLookup fields k
  | _, _ => none

/-- JavaScript truthiness of a JSON value. -/
def jsTruthy : Js → Bool
  | .jsNull => false
  | .jsNum q => decide (q ≠ 0)
  | .jsStr s => decide (s ≠ "")
  | .jsBool b => b
  | .jsArr _ => true
  | .jsObj _ => true

/-- The `data` field of an `AccountInfo` from
`connection.getParsedAccountInfo`: a raw `Buffer`, or a
`ParsedAccountData` record `(program, parsed, space)`. -/
inductive AccountData where
  | raw (base64 : String)
  | parsedData (program : String) (parsed : Js) (space : ℕ)

/-- Specification-side reading of the claim: the numeric `decimals`
field of the parsed info, when the account-info value is not null, its
data is parsed data, and the chain `parsed.info.decimals` reaches a
number. -/
def decimalsField (v : Option AccountData) : Option ℚ :=
  match v with
  | some (.parsedData _ parsed _) =>
    match optChain (optChain (some parsed) "info") "decimals" with
    | some (.jsNum d) => some d
    | _ => none
  | _ => none

namespace PageOne

/-- `getMintDecimals` (first copy): guards
`v && typeof v === 'object' && 'data' in v && v.data &&
typeof v.data === 'object' && 'parsed' in v.data`, then reads
`parsed?.info?.decimals` and returns it when it is a number, else 9. -/
def getMintDecimals (v : Option AccountData) : ℚ :=
  match v with
  | none => 9
  | some acct =>
    match acct with
    | .raw _ => 9
    | .parsedData _ parsed _ =>
      match optChain (optChain (some parsed) "info") "decimals" with
      | some (.jsNum d) => d
      | _ => 9

end PageOne

namespace PageTwo

/-- `getMintDecimals` (second copy): guards
`v && typeof v.data === 'object' && (v.data as ParsedAccountData).parsed`
(a truthiness test on `parsed`; a raw `Buffer` has no `parsed` property),
then reads `parsed?.info?.decimals` the same way. -/
def getMintDecimals (v : Option AccountData) : ℚ :=
  match v with
  | none => 9
  | some acct =>
    match acct with
    | .raw _ => 9
    | .parsedData _ parsed _ =>
      if jsTruthy parsed then
        match optChain (optChain (some parsed) "info") "decimals" with
        | some (.jsNum d) => d
        | _ => 9
      else 9

end PageTwo

/-! ## Header lemmas -/

theorem hget_hset_self (h : HeaderMap) (k v k' : String)
    (hk : lowerKey k' = lowerKey k) : hget (hset h k v) k' = some v := by
  unfold hget hset
  rw [List.find?_append]
  have hnone : (h.filter (fun p => p.1 != lowerKey k)).find?
      (fun p => p.1 == lowerKey k') = none := by
    rw [List.find?_eq_none]
    intro x hx
    rw [List.mem_filter] at hx
    have hx2 := hx.2
    simp only [bne_iff_ne, ne_eq, decide_eq_true_eq] at hx2
    simp [beq_iff_eq, hk, hx2]
  rw [hnone]
  simp [beq_iff_eq, hk]

theorem find?_filter_of_key_ne (h : HeaderMap) (kl k'l : String) (hne : k'l ≠ kl) :
    ((h.filter (fun p => p.1 != kl)).find? (fun p => p.1 == k'l)) =
      h.find? (fun p => p.1 == k'l) := by
  induction h with
  | nil => rfl
  | cons a t ih =>
    by_cases ha : a.1 = kl
    · have h1 : List.filter (fun p => p.1 != kl) (a :: t) =
          List.filter (fun p => p.1 != kl) t := by
        simp [List.filter_cons, ha]
      have h2 : List.find? (fun p => p.1 == k'l) (a :: t) =
          List.find? (fun p => p.1 == k'l) t := by
        apply List.find?_cons_of_neg
        simp only [beq_iff_eq, ha]
        exact fun hc => hne hc.symm
      rw [h1, h2, ih]
    · have h1 : List.filter (fun p => p.1 != kl) (a :: t) =
          a :: List.filter (fun p => p.1 != kl) t := by
        simp [List.filter_cons, ha]
      rw [h1]
      by_cases hp : a.1 = k'l
      · rw [List.find?_cons_of_pos _ (by simp [beq_iff_eq, hp]),
          List.find?_cons_of_pos _ (by simp [beq_iff_eq, hp])]
      · rw [List.find?_cons_of_neg _ (by simp [beq_iff_eq, hp]),
          List.find?_cons_of_neg _ (by simp [beq_iff_eq, hp]), ih]

theorem hget_hset_ne (h : HeaderMap) (k v k' : String)
    (hk : lowerKey k' ≠ lowerKey k) : hget (hset h k v) k' = hget h k' := by
  unfold hget hset
  rw [List.find?_append, find?_filter_of_key_ne h _ _ hk]
  cases hfind : h.find? (fun p => p.1 == lowerKey k') with
  | some p => rfl
  | none =>
    have hb : ((lowerKey k, v).1 == lowerKey k') = false := by
      simp only [beq_eq_false_iff_ne, ne_eq]
      exact fun hc => hk hc.symm
    simp [List.find?, hb]

theorem hget_hdel_self (h : HeaderMap) (k k' : String)
    (hk : lowerKey k' = lowerKey k) : hget (hdel h k) k' = none := by
  unfold hget hdel
  have hnone : (h.filter (fun p => p.1 != lowerKey k)).find?
      (fun p => p.1 == lowerKey k') = none := by
    rw [List.find?_eq_none]
    intro x hx
    rw [List.mem_filter] at hx
    have hx2 := hx.2
    simp only [bne_iff_ne, ne_eq, decide_eq_true_eq] at hx2
    simp [beq_iff_eq, hk, hx2]
  rw [hnone]
  rfl

theorem hget_hdel_ne (h : HeaderMap) (k k' : String)
    (hk : lowerKey k' ≠ lowerKey k) : hget (hdel h k) k' = hget h k' := by
  unfold hget hdel
  rw [find?_filter_of_key_ne h _ _ hk]

theorem hdel_idem (h : HeaderMap) (k : String) : hdel (hdel h k) k = hdel h k := by
  unfold hdel
  rw [List.filter_filter]
  congr 1
  funext p
  cases hb : (p.1 != lowerKey k) <;> simp [hb]

theorem hdel_comm (h : HeaderMap) (k k' : String) :
    hdel (hdel h k) k' = hdel (hdel h k') k := by
  unfold hdel
  rw [List.filter_comm]

theorem hdel_strip_idem (X : HeaderMap) (k k' : String) :
    hdel (hdel (hdel (hdel X k) k') k) k' = hdel (hdel X k) k' := by
  unfold hdel
  simp only [List.filter_filter]
  congr 1
  funext p
  cases h1 : (p.1 != lowerKey k) <;> cases h2 : (p.1 != lowerKey k') <;> simp [h1, h2]

/-- `applyCors` unfolded to its four `set` calls. -/
theorem applyCors_eq (h : HeaderMap) :
    applyCors h =
      hset (hset (hset (hset h "Access-Control-Allow-Origin" "*")
        "Access-Control-Allow-Methods" "GET,POST,OPTIONS")
        "Access-Control-Allow-Headers" "Content-Type, Authorization, X-Requested-With")
        "Access-Control-Max-Age" "86400" := rfl

theorem hget_applyCors_origin (h : HeaderMap) :
    hget (applyCors h) "Access-Control-Allow-Origin" = some "*" := by
  rw [applyCors_eq, hget_hset_ne _ _ _ _ (by decide), hget_hset_ne _ _ _ _ (by decide),
    hget_hset_ne _ _ _ _ (by decide), hget_hset_self _ _ _ _ (by decide)]

theorem hget_applyCors_methods (h : HeaderMap) :
    hget (applyCors h) "Access-Control-Allow-Methods" = some "GET,POST,OPTIONS" := by
  rw [applyCors_eq, hget_hset_ne _ _ _ _ (by decide), hget_hset_ne _ _ _ _ (by decide),
    hget_hset_self _ _ _ _ (by decide)]

theorem hget_applyCors_allowHeaders (h : HeaderMap) :
    hget (applyCors h) "Access-Control-Allow-Headers" =
      some "Content-Type, Authorization, X-Requested-With" := by
  rw [applyCors_eq, hget_hset_ne _ _ _ _ (by decide),
    hget_hset_self _ _ _ _ (by decide)]

theorem hget_applyCors_maxAge (h : HeaderMap) :
    hget (applyCors h) "Access-Control-Max-Age" = some "86400" := by
  rw [applyCors_eq, hget_hset_self _ _ _ _ (by decide)]

/-- All four CORS headers are present with their configured values. -/
def corsComplete (h : HeaderMap) : Prop :=
  hget h "Access-Control-Allow-Origin" = some "*" ∧
  hget h "Access-Control-Allow-Methods" = some "GET,POST,OPTIONS" ∧
  hget h "Access-Control-Allow-Headers" =
    some "Content-Type, Authorization, X-Requested-With" ∧
  hget h "Access-Control-Max-Age" = some "86400"

theorem corsComplete_applyCors (h : HeaderMap) : corsComplete (applyCors h) :=
  ⟨hget_applyCors_origin h, hget_applyCors_methods h,
   hget_applyCors_allowHeaders h, hget_applyCors_maxAge h⟩

theorem corsComplete_hdel_ce (h : HeaderMap) (hc : corsComplete h) :
    corsComplete (hdel h "content-encoding") := by
  obtain ⟨h1, h2, h3, h4⟩ := hc
  exact ⟨by rw [hget_hdel_ne _ _ _ (by decide)]; exact h1,
         by rw [hget_hdel_ne _ _ _ (by decide)]; exact h2,
         by rw [hget_hdel_ne _ _ _ (by decide)]; exact h3,
         by rw [hget_hdel_ne _ _ _ (by decide)]; exact h4⟩

theorem corsComplete_hdel_cl (h : HeaderMap) (hc : corsComplete h) :
    corsComplete (hdel h "content-length") := by
  obtain ⟨h1, h2, h3, h4⟩ := hc
  exact ⟨by rw [hget_hdel_ne _ _ _ (by decide)]; exact h1,
         by rw [hget_hdel_ne _ _ _ (by decide)]; exact h2,
         by rw [hget_hdel_ne _ _ _ (by decide)]; exact h3,
         by rw [hget_hdel_ne _ _ _ (by decide)]; exact h4⟩

theorem corsComplete_streamingResponse (out : UpstreamOutcome) :
    corsComplete (StreamingProxy.proxyResponse out).headers := by
  cases out with
  | ok status statusText hdrs body =>
    unfold StreamingProxy.proxyResponse
    by_cases h4 : 400 ≤ status
    · simp only [h4, if_true]
      exact corsComplete_hdel_cl _ (corsComplete_hdel_ce _ (corsComplete_applyCors _))
    · simp only [h4, if_false]
      exact corsComplete_applyCors _
  | thrown m =>
    exact corsComplete_applyCors _

theorem corsComplete_bufferingResponse (out : UpstreamOutcome) :
    corsComplete (BufferingProxy.proxyResponse out).headers := by
  cases out with
  | ok status statusText hdrs body =>
    unfold BufferingProxy.proxyResponse
    by_cases h4 : 400 ≤ status
    · simp only [h4, if_true]
      exact corsComplete_hdel_cl _ (corsComplete_hdel_ce _ (corsComplete_applyCors _))
    · simp only [h4, if_false]
      exact corsComplete_hdel_cl _ (corsComplete_hdel_ce _ (corsComplete_applyCors _))
  | thrown m =>
    exact corsComplete_applyCors _

/-! ## Claim theorems -/

/-- C1: every response produced by the Jupiter proxy route — for every
GET, POST, or OPTIONS request, whether the upstream call succeeds,
returns a status >= 400, or throws — carries all four CORS headers:
`Access-Control-Allow-Origin: *`,
`Access-Control-Allow-Methods: GET,POST,OPTIONS`,
`Access-Control-Allow-Headers: Content-Type, Authorization,
X-Requested-With`, and `Access-Control-Max-Age: 86400`. -/
theorem jupiter_route_always_cors (req : ProxyRequest) (out : UpstreamOutcome)
    (resp : ProxyResponse)
    (hresp : StreamingProxy.routeHandle req out = some resp) :
    hget resp.headers "Access-Control-Allow-Origin" = some "*" ∧
    hget resp.headers "Access-Control-Allow-Methods" = some "GET,POST,OPTIONS" ∧
    hget resp.headers "Access-Control-Allow-Headers" =
      some "Content-Type, Authorization, X-Requested-With" ∧
    hget resp.headers "Access-Control-Max-Age" = some "86400" := by
  unfold StreamingProxy.routeHandle at hresp
  by_cases hm : req.method = "OPTIONS"
  · simp only [hm, if_true] at hresp
    obtain rfl : StreamingProxy.optionsHandler = resp := Option.some.inj hresp
    exact corsComplete_applyCors []
  · simp only [hm, if_false] at hresp
    by_cases hgp : req.method = "GET" ∨ req.method = "POST"
    · simp only [hgp, if_true] at hresp
      obtain rfl : StreamingProxy.proxyResponse out = resp := Option.some.inj hresp
      exact corsComplete_streamingResponse out
    · simp only [hgp, if_false] at hresp
      exact absurd hresp (by simp)

/-- Witness for C1 at a concrete POST request whose upstream returned
status 500. -/
theorem jupiter_route_always_cors_witness :
    StreamingProxy.routeHandle ⟨"POST", ["quote"], [], [], "\x7b\x7d"⟩
        (.ok 500 "Internal Server Error" [("Content-Length", "2")] "no")
      = some (StreamingProxy.proxyResponse
          (.ok 500 "Internal Server Error" [("Content-Length", "2")] "no")) ∧
    hget (StreamingProxy.proxyResponse
        (.ok 500 "Internal Server Error" [("Content-Length", "2")] "no")).headers
      "Access-Control-Allow-Origin" = some "*" :=
  ⟨by decide,
   (jupiter_route_always_cors ⟨"POST", ["quote"], [], [], "\x7b\x7d"⟩
     (.ok 500 "Internal Server Error" [("Content-Length", "2")] "no") _ (by decide)).1⟩

/-- C5: when the upstream responds with status >= 400 both proxy variants
forward that status, statusText and body text with the content-encoding
and content-length headers removed, and when the upstream fetch throws
both respond 502 with the JSON error body. -/
theorem proxy_error_forwarding (status : ℕ) (statusText : String)
    (hdrs : HeaderMap) (body : String) (m : Option String)
    (h4 : 400 ≤ status) :
    (StreamingProxy.proxyResponse (.ok status statusText hdrs body)).status = status ∧
    (StreamingProxy.proxyResponse (.ok status statusText hdrs body)).statusText = statusText ∧
    (StreamingProxy.proxyResponse (.ok status statusText hdrs body)).body = body ∧
    hget (StreamingProxy.proxyResponse (.ok status statusText hdrs body)).headers
      "content-encoding" = none ∧
    hget (StreamingProxy.proxyResponse (.ok status statusText hdrs body)).headers
      "content-length" = none ∧
    (BufferingProxy.proxyResponse (.ok status statusText hdrs body)).status = status ∧
    (BufferingProxy.proxyResponse (.ok status statusText hdrs body)).statusText = statusText ∧
    (BufferingProxy.proxyResponse (.ok status statusText hdrs body)).body = body ∧
    hget (BufferingProxy.proxyResponse (.ok status statusText hdrs body)).headers
      "content-encoding" = none ∧
    hget (BufferingProxy.proxyResponse (.ok status statusText hdrs body)).headers
      "content-length" = none ∧
    (StreamingProxy.proxyResponse (.thrown m)).status = 502 ∧
    (StreamingProxy.proxyResponse (.thrown m)).body =
      jupiterErrorBody (m.getD "Unknown proxy error") ∧
    (BufferingProxy.proxyResponse (.thrown m)).status = 502 ∧
    (BufferingProxy.proxyResponse (.thrown m)).body =
      jupiterErrorBody (m.getD "Unknown proxy error") := by
  unfold StreamingProxy.proxyResponse BufferingProxy.proxyResponse
  simp only [h4, if_true]
  refine ⟨?_, ?_, ?_, ?_, ?_, ?_, ?_, ?_, ?_, ?_, ?_, ?_, ?_, ?_⟩ <;>
    first
      | trivial
      | rw [hget_hdel_self _ _ _ (by decide)]
      | rw [hget_hdel_ne _ _ _ (by decide), hget_hdel_self _ _ _ (by decide)]

/-- Witness for C5 at a concrete 404 upstream response. -/
theorem proxy_error_forwarding_witness :
    (400 ≤ 404) ∧
    (StreamingProxy.proxyResponse
      (.ok 404 "Not Found" [("Content-Encoding", "gzip")] "missing")).status = 404 :=
  ⟨by decide,
   (proxy_error_forwarding 404 "Not Found" [("Content-Encoding", "gzip")]
     "missing" none (by decide)).1⟩

/-- C2 counterexample: on a 200 upstream response carrying a
Content-Length header the two proxy variants return different headers
(the buffering proxy strips it, the streaming proxy keeps it), so they
are not behaviorally equivalent. -/
theorem proxies_not_equivalent :
    ¬ (BufferingProxy.proxy ⟨"GET", ["quote"], [], [], ""⟩
        (.ok 200 "OK" [("Content-Length", "5")] "hello") =
       StreamingProxy.proxy ⟨"GET", ["quote"], [], [], ""⟩
        (.ok 200 "OK" [("Content-Length", "5")] "hello")) := by
  decide

/-- C2 amended: the two proxy variants build the same upstream request
and agree on response status, statusText and body; their response
headers agree up to the buffering proxy always stripping
content-encoding and content-length (the streaming proxy strips them
only on upstream statuses >= 400). -/
theorem proxies_equivalent_up_to_stripped_headers
    (req : ProxyRequest) (out : UpstreamOutcome) :
    (BufferingProxy.proxy req out).1 = (StreamingProxy.proxy req out).1 ∧
    (BufferingProxy.proxyResponse out).status =
      (StreamingProxy.proxyResponse out).status ∧
    (BufferingProxy.proxyResponse out).statusText =
      (StreamingProxy.proxyResponse out).statusText ∧
    (BufferingProxy.proxyResponse out).body =
      (StreamingProxy.proxyResponse out).body ∧
    (BufferingProxy.proxyResponse out).headers =
      hdel (hdel (StreamingProxy.proxyResponse out).headers
        "content-encoding") "content-length" := by
  refine ⟨rfl, ?_⟩
  cases out with
  | ok status statusText hdrs body =>
    unfold StreamingProxy.proxyResponse BufferingProxy.proxyResponse
    by_cases h4 : 400 ≤ status
    · simp only [h4, if_true]
      refine ⟨?_, ?_, ?_, ?_⟩ <;>
        first
          | trivial
          | exact (hdel_strip_idem (applyCors (hnorm hdrs))
              "content-encoding" "content-length").symm
    · simp only [h4, if_false]
      refine ⟨?_, ?_, ?_, ?_⟩ <;> trivial
  | thrown m =>
    refine ⟨?_, ?_, ?_, ?_⟩ <;> trivial

/-- C9: the upstream request depends only on the method, path segments,
query, body, and the whitelisted content-type / accept / authorization
headers; and a request without an accept header is forwarded with
`accept: application/json`. -/
theorem upstream_request_noninterference (r1 r2 r : ProxyRequest)
    (hm : r1.method = r2.method) (hs : r1.segments = r2.segments)
    (hq : r1.query = r2.query) (hb : r1.body = r2.body)
    (hh : ∀ n ∈ forwardHeaders, hget r1.headers n = hget r2.headers n)
    (hacc : hget r.headers "accept" = none) :
    buildUpstreamRequest r1 = buildUpstreamRequest r2 ∧
    hget (buildUpstreamRequest r).headers "accept" = some "application/json" := by
  constructor
  · have hct := hh "content-type" (by simp [forwardHeaders])
    have hac := hh "accept" (by simp [forwardHeaders])
    have hau := hh "authorization" (by simp [forwardHeaders])
    unfold buildUpstreamRequest buildUpstreamHeaders buildUpstreamBody
    simp only [forwardHeaders, List.foldl, hm, hs, hq, hb, hct, hac, hau]
  · have hfin : ∀ X : HeaderMap, hget X "accept" = none →
        hget (if hhas X "accept" = true then X
              else hset X "accept" "application/json") "accept" =
          some "application/json" := by
      intro X hX
      have hf : hhas X "accept" = false := by rw [hhas, hX]; rfl
      rw [hf]
      simp only [Bool.false_eq_true, if_false]
      exact hget_hset_self _ _ _ _ rfl
    have hstep : ∀ (acc : HeaderMap) (name w : String),
        lowerKey "accept" ≠ lowerKey name →
        hget acc "accept" = none →
        hget (if w ≠ "" then hset acc name w else acc) "accept" = none := by
      intro acc name w hne h
      by_cases hw : w = ""
      · rw [if_neg (not_not_intro hw)]
        exact h
      · rw [if_pos hw, hget_hset_ne _ _ _ _ hne]
        exact h
    unfold buildUpstreamRequest buildUpstreamHeaders
    simp only [forwardHeaders, List.foldl, hacc]
    cases hct : hget r.headers "content-type" with
    | none =>
      cases hau : hget r.headers "authorization" with
      | none => exact hfin _ rfl
      | some w => exact hfin _ (hstep _ _ _ (by decide) rfl)
    | some v =>
      cases hau : hget r.headers "authorization" with
      | none => exact hfin _ (hstep _ _ _ (by decide) rfl)
      | some w =>
        exact hfin _ (hstep _ _ _ (by decide) (hstep _ _ _ (by decide) rfl))

/-- Witness for C9: two GET requests differing only in an `x-debug`
header produce the same upstream request, and a request without an
accept header is forwarded with `accept: application/json`. -/
theorem upstream_request_noninterference_witness :
    hget (ProxyRequest.mk "GET" ["quote"] [("amount", "5")] [("x-debug", "1")] "").headers
        "accept" = none ∧
    buildUpstreamRequest (ProxyRequest.mk "GET" ["quote"] [("amount", "5")] [("x-debug", "1")] "") =
      buildUpstreamRequest (ProxyRequest.mk "GET" ["quote"] [("amount", "5")] [] "") ∧
    hget (buildUpstreamRequest
        (ProxyRequest.mk "GET" ["quote"] [("amount", "5")] [("x-debug", "1")] "")).headers
      "accept" = some "application/json" :=
  ⟨by decide,
   (upstream_request_noninterference
      (ProxyRequest.mk "GET" ["quote"] [("amount", "5")] [("x-debug", "1")] "")
      (ProxyRequest.mk "GET" ["quote"] [("amount", "5")] [] "")
      (ProxyRequest.mk "GET" ["quote"] [("amount", "5")] [("x-debug", "1")] "")
      rfl rfl rfl rfl (by decide) (by decide)).1,
   (upstream_request_noninterference
      (ProxyRequest.mk "GET" ["quote"] [("amount", "5")] [("x-debug", "1")] "")
      (ProxyRequest.mk "GET" ["quote"] [("amount", "5")] [] "")
      (ProxyRequest.mk "GET" ["quote"] [("amount", "5")] [("x-debug", "1")] "")
      rfl rfl rfl rfl (by decide) (by decide)).2⟩

/-- C10: both copies of `getMintDecimals` are total and return the
parsed info's numeric `decimals` field when the account-info value is
non-null parsed data exposing one, and the default 9 in every other
case. -/
theorem getMintDecimals_total_default (v : Option AccountData) :
    PageOne.getMintDecimals v = (decimalsField v).getD 9 ∧
    PageTwo.getMintDecimals v = (decimalsField v).getD 9 := by
  constructor
  · cases v with
    | none => rfl
    | some acct =>
      cases acct with
      | raw b => rfl
      | parsedData prog parsed space =>
        simp only [PageOne.getMintDecimals, decimalsField]
        cases hc : optChain (optChain (some parsed) "info") "decimals" with
        | none => rfl
        | some j => cases j <;> rfl
  · cases v with
    | none => rfl
    | some acct =>
      cases acct with
      | raw b => rfl
      | parsedData prog parsed space =>
        cases parsed with
        | jsNull => rfl
        | jsStr s =>
          cases hjt : jsTruthy (Js.jsStr s) <;>
            simp [PageTwo.getMintDecimals, decimalsField, optChain, hjt]
        | jsNum q =>
          cases hjt : jsTruthy (Js.jsNum q) <;>
            simp [PageTwo.getMintDecimals, decimalsField, optChain, hjt]
        | jsBool b =>
          cases b <;> rfl
        | jsArr elems => rfl
        | jsObj fields =>
          simp only [PageTwo.getMintDecimals, decimalsField, jsTruthy, if_true]
          cases hc : optChain (optChain (some (Js.jsObj fields)) "info") "decimals" with
          | none => rfl
          | some j => cases j <;> rfl

/-- The amount validation unfolded: the lamport conversion passes the
`!Number.isFinite(lam) || lam <= 0` check exactly when `parseFloat`
returned a finite number whose converted floor is positive. -/
theorem positiveLamports_lamportsOfInput (p : String → JsNum) (wdSol : String) :
    positiveLamports (lamportsOfInput p wdSol) =
      (match p (if wdSol = "" then "0" else wdSol) with
       | .num q =>
         if ⌊max q 0 * (LAMPORTS_PER_SOL : ℚ)⌋ ≤ 0 then none
         else some ⌊max q 0 * (LAMPORTS_PER_SOL : ℚ)⌋
       | _ => none) := by
  unfold lamportsOfInput
  cases p (if wdSol = "" then "0" else wdSol) with
  | nan => rfl
  | inf => rfl
  | ninf => simp [jsMax0, jsMulPos, jsFloor, positiveLamports]
  | num q =>
    simp only [jsMax0, jsMulPos, jsFloor, positiveLamports, Int.floor_intCast]
    by_cases hq : ⌊max q 0 * (LAMPORTS_PER_SOL : ℚ)⌋ ≤ 0
    · rw [if_pos (by exact_mod_cast hq), if_pos hq]
    · rw [if_neg (by exact_mod_cast hq), if_neg hq]

/-- Inversion: whenever `sendWithdrawSol` reaches `sendTransaction`, all
its guards passed, and the balance covered amount + fee + buffer. -/
theorem sendWithdrawSol_submit_inv (env : WithdrawEnv) (s : WithdrawState)
    (toPk : String) (lam : ℤ)
    (h : sendWithdrawSol env s = .submit toPk lam) :
    s.publicKey ≠ none ∧
    env.parseAddress (trimWs s.wdTo) = some toPk ∧
    positiveLamports (lamportsOfInput env.parseFloat s.wdSol) = some lam ∧
    ∃ fee,
      (s.wdFeeLamports = some fee ∨
        (s.wdFeeLamports = none ∧ env.estimateFee = some fee)) ∧
      lam + fee + ⌈SOL_FEE_BUFFER * (LAMPORTS_PER_SOL : ℚ)⌉ ≤
        ⌊s.solBalance * (LAMPORTS_PER_SOL : ℚ)⌋ := by
  unfold sendWithdrawSol at h
  cases hpk : s.publicKey with
  | none => rw [hpk] at h; simp at h
  | some pk =>
    rw [hpk] at h
    cases haddr : env.parseAddress (trimWs s.wdTo) with
    | none => rw [haddr] at h; simp at h
    | some toPk0 =>
      rw [haddr] at h
      cases hlam : positiveLamports (lamportsOfInput env.parseFloat s.wdSol) with
      | none => rw [hlam] at h; simp at h
      | some lam0 =>
        rw [hlam] at h
        cases hwf : s.wdFeeLamports with
        | some f =>
          rw [hwf] at h
          dsimp only at h
          by_cases hins : ⌊s.solBalance * (LAMPORTS_PER_SOL : ℚ)⌋ <
              lam0 + f + ⌈SOL_FEE_BUFFER * (LAMPORTS_PER_SOL : ℚ)⌉
          · rw [if_pos hins] at h; simp at h
          · rw [if_neg hins] at h
            injection h with h1 h2
            subst h1; subst h2
            exact ⟨by simp, rfl, rfl, ⟨f, Or.inl rfl, not_lt.mp hins⟩⟩
        | none =>
          rw [hwf] at h
          dsimp only at h
          cases hef : env.estimateFee with
          | none => rw [hef] at h; simp at h
          | some g =>
            rw [hef] at h
            dsimp only at h
            by_cases hins : ⌊s.solBalance * (LAMPORTS_PER_SOL : ℚ)⌋ <
                lam0 + g + ⌈SOL_FEE_BUFFER * (LAMPORTS_PER_SOL : ℚ)⌉
            · rw [if_pos hins] at h; simp at h
            · rw [if_neg hins] at h
              injection h with h1 h2
              subst h1; subst h2
              exact ⟨by simp, rfl, rfl, ⟨g, Or.inr ⟨rfl, rfl⟩, not_lt.mp hins⟩⟩

/-- C3: the SOL withdrawal submits a transfer only when
`floor(solBalance * LAMPORTS_PER_SOL)` covers amount + estimated fee +
`ceil(0.004 * LAMPORTS_PER_SOL)`; on an invalid address, an invalid
amount, or an unavailable fee estimate it shows an error toast and sends
nothing, and every run either submits or shows an error toast. -/
theorem sendWithdrawSol_guarded (env : WithdrawEnv) (s : WithdrawState) :
    (∀ toPk lam, sendWithdrawSol env s = .submit toPk lam →
      ∃ fee,
        (s.wdFeeLamports = some fee ∨
          (s.wdFeeLamports = none ∧ env.estimateFee = some fee)) ∧
        lam + fee + ⌈SOL_FEE_BUFFER * (LAMPORTS_PER_SOL : ℚ)⌉ ≤
          ⌊s.solBalance * (LAMPORTS_PER_SOL : ℚ)⌋) ∧
    (env.parseAddress (trimWs s.wdTo) = none →
      ∃ m, sendWithdrawSol env s = .toastError m) ∧
    (positiveLamports (lamportsOfInput env.parseFloat s.wdSol) = none →
      ∃ m, sendWithdrawSol env s = .toastError m) ∧
    (s.wdFeeLamports = none → env.estimateFee = none →
      ∃ m, sendWithdrawSol env s = .toastError m) ∧
    ((∃ toPk lam, sendWithdrawSol env s = .submit toPk lam) ∨
      (∃ m, sendWithdrawSol env s = .toastError m)) := by
  refine ⟨fun toPk lam h => (sendWithdrawSol_submit_inv env s toPk lam h).2.2.2,
    ?_, ?_, ?_, ?_⟩
  · intro ha
    unfold sendWithdrawSol
    cases hpk : s.publicKey with
    | none => exact ⟨_, rfl⟩
    | some pk => rw [ha]; exact ⟨_, rfl⟩
  · intro hb
    unfold sendWithdrawSol
    cases hpk : s.publicKey with
    | none => exact ⟨_, rfl⟩
    | some pk =>
      cases haddr : env.parseAddress (trimWs s.wdTo) with
      | none => exact ⟨_, rfl⟩
      | some toPk0 => rw [hb]; exact ⟨_, rfl⟩
  · intro hc1 hc2
    unfold sendWithdrawSol
    cases hpk : s.publicKey with
    | none => exact ⟨_, rfl⟩
    | some pk =>
      cases haddr : env.parseAddress (trimWs s.wdTo) with
      | none => exact ⟨_, rfl⟩
      | some toPk0 =>
        cases hlam : positiveLamports (lamportsOfInput env.parseFloat s.wdSol) with
        | none => exact ⟨_, rfl⟩
        | some lam0 => rw [hc1, hc2]; exact ⟨_, rfl⟩
  · cases hr : sendWithdrawSol env s with
    | toastError m => exact Or.inr ⟨m, rfl⟩
    | submit toPk lam => exact Or.inl ⟨toPk, lam, rfl⟩

/-- Witness for C3: a withdrawal of 2 SOL from a 3 SOL balance with a
5000-lamport fee estimate is submitted, and the balance bound holds. -/
theorem sendWithdrawSol_guarded_witness :
    sendWithdrawSol
        ⟨fun _ => some "dest",
         fun str => if str = "2" then JsNum.num 2 else JsNum.nan,
         some 5000⟩
        ⟨some "me", "dest", "2", none, 3⟩ =
      WithdrawAction.submit "dest" 2000000000 ∧
    ∃ fee,
      ((none : Option ℤ) = some fee ∨
        ((none : Option ℤ) = none ∧ (some 5000 : Option ℤ) = some fee)) ∧
      2000000000 + fee + ⌈SOL_FEE_BUFFER * (LAMPORTS_PER_SOL : ℚ)⌉ ≤
        ⌊(3 : ℚ) * (LAMPORTS_PER_SOL : ℚ)⌋ := by
  have hlam : positiveLamports (lamportsOfInput
      (fun str => if str = "2" then JsNum.num 2 else JsNum.nan) "2") =
      some 2000000000 := by
    unfold lamportsOfInput
    rw [if_neg (by decide : ¬("2" : String) = "")]
    show positiveLamports (jsFloor (jsMulPos (jsMax0
      (if ("2" : String) = "2" then JsNum.num 2 else JsNum.nan)) LAMPORTS_PER_SOL)) = _
    rw [if_pos rfl]
    rw [show jsMax0 (JsNum.num 2) = JsNum.num 2 by rw [jsMax0]; norm_num]
    rw [show jsMulPos (JsNum.num 2) LAMPORTS_PER_SOL = JsNum.num 2000000000 by
      rw [jsMulPos]; norm_num [LAMPORTS_PER_SOL]]
    rw [show jsFloor (JsNum.num 2000000000) = JsNum.num 2000000000 by
      rw [jsFloor]; norm_num]
    rw [positiveLamports]
    norm_num
  have hmain : sendWithdrawSol
      ⟨fun _ => some "dest",
       fun str => if str = "2" then JsNum.num 2 else JsNum.nan,
       some 5000⟩
      ⟨some "me", "dest", "2", none, 3⟩ =
      WithdrawAction.submit "dest" 2000000000 := by
    unfold sendWithdrawSol
    dsimp only
    rw [hlam]
    dsimp only
    rw [if_neg (by norm_num [SOL_FEE_BUFFER, LAMPORTS_PER_SOL])]
  exact ⟨hmain,
    (sendWithdrawSol_guarded
      ⟨fun _ => some "dest",
       fun str => if str = "2" then JsNum.num 2 else JsNum.nan,
       some 5000⟩
      ⟨some "me", "dest", "2", none, 3⟩).1 "dest" 2000000000 hmain⟩

/-- When the converted amount fails the positivity/finiteness check, no
transfer is submitted and no fee estimation happens. -/
theorem withdraw_reject_of_noPos (env : WithdrawEnv) (s : WithdrawState)
    (hnone : positiveLamports (lamportsOfInput env.parseFloat s.wdSol) = none) :
    (∀ toPk lam, sendWithdrawSol env s ≠ .submit toPk lam) ∧
    refreshWithdrawFee env s = none := by
  constructor
  · intro toPk lam h
    have hinv := (sendWithdrawSol_submit_inv env s toPk lam h).2.2.1
    rw [hnone] at hinv
    cases hinv
  · unfold refreshWithdrawFee
    cases hpk : s.publicKey with
    | none => rfl
    | some pk => rw [hnone]

/-- C8: the withdrawal amount is converted as
`floor(max(0, parsed) * LAMPORTS_PER_SOL)` with
`LAMPORTS_PER_SOL = 10^9`, and the withdrawal is rejected unless that
lamport amount is finite and strictly positive. -/
theorem withdraw_amount_conversion (env : WithdrawEnv) (s : WithdrawState) :
    LAMPORTS_PER_SOL = 10 ^ 9 ∧
    (∀ toPk lam, sendWithdrawSol env s = .submit toPk lam →
      ∃ q, env.parseFloat (if s.wdSol = "" then "0" else s.wdSol) = .num q ∧
        lam = ⌊max q 0 * (LAMPORTS_PER_SOL : ℚ)⌋ ∧ 0 < lam) ∧
    (∀ q, env.parseFloat (if s.wdSol = "" then "0" else s.wdSol) = .num q →
      ⌊max q 0 * (LAMPORTS_PER_SOL : ℚ)⌋ ≤ 0 →
      (∀ toPk lam, sendWithdrawSol env s ≠ .submit toPk lam) ∧
        refreshWithdrawFee env s = none) ∧
    (jsIsFinite (lamportsOfInput env.parseFloat s.wdSol) = false →
      (∀ toPk lam, sendWithdrawSol env s ≠ .submit toPk lam) ∧
        refreshWithdrawFee env s = none) := by
  refine ⟨rfl, ?_, ?_, ?_⟩
  · intro toPk lam h
    have hinv := (sendWithdrawSol_submit_inv env s toPk lam h).2.2.1
    rw [positiveLamports_lamportsOfInput] at hinv
    cases hp : env.parseFloat (if s.wdSol = "" then "0" else s.wdSol) with
    | num q =>
      simp only [hp] at hinv
      by_cases hq : ⌊max q 0 * (LAMPORTS_PER_SOL : ℚ)⌋ ≤ 0
      · rw [if_pos hq] at hinv; cases hinv
      · rw [if_neg hq] at hinv
        exact ⟨q, rfl, (Option.some.inj hinv).symm,
          Option.some.inj hinv ▸ not_le.mp hq⟩
    | nan => simp [hp] at hinv
    | inf => simp [hp] at hinv
    | ninf => simp [hp] at hinv
  · intro q hp hq0
    apply withdraw_reject_of_noPos
    simp only [positiveLamports_lamportsOfInput, hp]
    rw [if_pos hq0]
  · intro hfin
    apply withdraw_reject_of_noPos
    rw [positiveLamports_lamportsOfInput]
    cases hp : env.parseFloat (if s.wdSol = "" then "0" else s.wdSol) with
    | num q =>
      exfalso
      unfold lamportsOfInput at hfin
      rw [hp] at hfin
      simp [jsMax0, jsMulPos, jsFloor, jsIsFinite] at hfin
    | nan => rfl
    | inf => rfl
    | ninf => rfl

/-- Witness for C8: the 4 SOL withdrawal converts to exactly
4000000000 lamports, which is positive and finite. -/
theorem withdraw_amount_conversion_witness :
    sendWithdrawSol
        ⟨fun _ => some "addr",
         fun str => if str = "4" then JsNum.num 4 else JsNum.nan,
         some 5000⟩
        ⟨some "wallet", "addr", "4", none, 5⟩ =
      WithdrawAction.submit "addr" 4000000000 ∧
    ∃ q, (if ("4" : String) = "" then
          (if ("" : String) = "4" then JsNum.num 4 else JsNum.nan)
        else (if ("4" : String) = "4" then JsNum.num 4 else JsNum.nan)) = JsNum.num q ∧
      (4000000000 : ℤ) = ⌊max q 0 * (LAMPORTS_PER_SOL : ℚ)⌋ ∧ (0 : ℤ) < 4000000000 := by
  have hlam : positiveLamports (lamportsOfInput
      (fun str => if str = "4" then JsNum.num 4 else JsNum.nan) "4") =
      some 4000000000 := by
    unfold lamportsOfInput
    rw [if_neg (by decide : ¬("4" : String) = "")]
    show positiveLamports (jsFloor (jsMulPos (jsMax0
      (if ("4" : String) = "4" then JsNum.num 4 else JsNum.nan)) LAMPORTS_PER_SOL)) = _
    rw [if_pos rfl]
    rw [show jsMax0 (JsNum.num 4) = JsNum.num 4 by rw [jsMax0]; norm_num]
    rw [show jsMulPos (JsNum.num 4) LAMPORTS_PER_SOL = JsNum.num 4000000000 by
      rw [jsMulPos]; norm_num [LAMPORTS_PER_SOL]]
    rw [show jsFloor (JsNum.num 4000000000) = JsNum.num 4000000000 by
      rw [jsFloor]; norm_num]
    rw [positiveLamports]
    norm_num
  have hmain : sendWithdrawSol
      ⟨fun _ => some "addr",
       fun str => if str = "4" then JsNum.num 4 else JsNum.nan,
       some 5000⟩
      ⟨some "wallet", "addr", "4", none, 5⟩ =
      WithdrawAction.submit "addr" 4000000000 := by
    unfold sendWithdrawSol
    dsimp only
    rw [hlam]
    dsimp only
    rw [if_neg (by norm_num [SOL_FEE_BUFFER, LAMPORTS_PER_SOL])]
  exact ⟨hmain,
    (withdraw_amount_conversion
      ⟨fun _ => some "addr",
       fun str => if str = "4" then JsNum.num 4 else JsNum.nan,
       some 5000⟩
      ⟨some "wallet", "addr", "4", none, 5⟩).2.1 "addr" 4000000000 hmain⟩

/-! ## Retry-loop lemmas -/

theorem retryLoop_calls_le {Q : Type} (f : ℕ → Except String (Option Q))
    (d r : ℕ) : ∀ (i : ℕ) (le : Option String),
    (retryLoop f d i r le).calls.length ≤ r := by
  induction r with
  | zero => intro i le; simp [retryLoop]
  | succ r ih =>
    intro i le
    unfold retryLoop
    cases hf : f i with
    | ok oq =>
      cases oq with
      | some q => simp
      | none =>
        dsimp only
        simpa using Nat.succ_le_succ (ih (i + 1) le)
    | error e =>
      dsimp only
      simpa using Nat.succ_le_succ (ih (i + 1) (some e))

theorem retryLoop_calls_range {Q : Type} (f : ℕ → Except String (Option Q))
    (d r : ℕ) : ∀ (i : ℕ) (le : Option String),
    (retryLoop f d i r le).calls =
      List.range' i (retryLoop f d i r le).calls.length := by
  induction r with
  | zero => intro i le; rfl
  | succ r ih =>
    intro i le
    unfold retryLoop
    cases hf : f i with
    | ok oq =>
      cases oq with
      | some q => rfl
      | none =>
        dsimp only
        rw [List.length_cons, List.range'_succ]
        exact congrArg (List.cons i) (ih (i + 1) le)
    | error e =>
      dsimp only
      rw [List.length_cons, List.range'_succ]
      exact congrArg (List.cons i) (ih (i + 1) (some e))

theorem retryLoop_sleeps_range {Q : Type} (f : ℕ → Except String (Option Q))
    (d r : ℕ) : ∀ (i : ℕ) (le : Option String),
    (retryLoop f d i r le).sleeps =
      (List.range' (i + 1) (retryLoop f d i r le).sleeps.length).map
        (fun k => d * k) := by
  induction r with
  | zero => intro i le; rfl
  | succ r ih =>
    intro i le
    unfold retryLoop
    cases hf : f i with
    | ok oq =>
      cases oq with
      | some q => rfl
      | none =>
        dsimp only
        rw [List.length_cons, List.range'_succ, List.map_cons]
        exact congrArg (List.cons (d * (i + 1))) (ih (i + 1) le)
    | error e =>
      dsimp only
      rw [List.length_cons, List.range'_succ, List.map_cons]
      exact congrArg (List.cons (d * (i + 1))) (ih (i + 1) (some e))

theorem retryLoop_ok_first_truthy {Q : Type} (f : ℕ → Except String (Option Q))
    (d r : ℕ) : ∀ (i : ℕ) (le : Option String) (q : Q),
    (retryLoop f d i r le).result = .ok q →
    ∃ k, k < r ∧ f (i + k) = .ok (some q) ∧
      ∀ j, j < k → isTruthyQuote (f (i + j)) = false := by
  induction r with
  | zero => intro i le q h; simp [retryLoop] at h
  | succ r ih =>
    intro i le q h
    unfold retryLoop at h
    cases hf : f i with
    | ok oq =>
      cases oq with
      | some q0 =>
        rw [hf] at h
        dsimp only at h
        injection h with h1
        exact ⟨0, Nat.succ_pos r, by rw [Nat.add_zero, hf, h1],
          fun j hj => absurd hj (Nat.not_lt_zero j)⟩
      | none =>
        rw [hf] at h
        dsimp only at h
        obtain ⟨k, hk, hfk, hbefore⟩ := ih (i + 1) le q h
        refine ⟨k + 1, Nat.succ_lt_succ hk, by
          have harith : i + (k + 1) = i + 1 + k := by omega
          rw [harith]; exact hfk, ?_⟩
        intro j hj
        cases j with
        | zero =>
          rw [Nat.add_zero]
          simp [isTruthyQuote, hf]
        | succ j =>
          have harith : i + (j + 1) = i + 1 + j := by omega
          rw [harith]
          exact hbefore j (Nat.lt_of_succ_lt_succ hj)
    | error e =>
      rw [hf] at h
      dsimp only at h
      obtain ⟨k, hk, hfk, hbefore⟩ := ih (i + 1) (some e) q h
      refine ⟨k + 1, Nat.succ_lt_succ hk, by
        have harith : i + (k + 1) = i + 1 + k := by omega
        rw [harith]; exact hfk, ?_⟩
      intro j hj
      cases j with
      | zero =>
        rw [Nat.add_zero]
        simp [isTruthyQuote, hf]
      | succ j =>
        have harith : i + (j + 1) = i + 1 + j := by omega
        rw [harith]
        exact hbefore j (Nat.lt_of_succ_lt_succ hj)

/-- The value the loop variable `lastErr` holds after running the `r`
attempts starting at `i`, having entered them with value `le`. -/
def segLast {Q : Type} (f : ℕ → Except String (Option Q)) :
    ℕ → ℕ → Option String → Option String
  | _, 0, le => le
  | i, r + 1, le =>
    segLast f (i + 1) r
      (match f i with
       | .error e => some e
       | _ => le)

theorem retryLoop_allFail {Q : Type} (f : ℕ → Except String (Option Q))
    (d r : ℕ) : ∀ (i : ℕ) (le : Option String),
    (∀ j, j < r → isTruthyQuote (f (i + j)) = false) →
    (retryLoop f d i r le).result =
      .error ((segLast f i r le).getD "Quote failed after retries") := by
  induction r with
  | zero => intro i le hfail; simp [retryLoop, segLast]
  | succ r ih =>
    intro i le hfail
    unfold retryLoop segLast
    cases hf : f i with
    | ok oq =>
      cases oq with
      | some q0 =>
        have h0 := hfail 0 (Nat.succ_pos r)
        rw [Nat.add_zero] at h0
        rw [hf] at h0
        simp [isTruthyQuote] at h0
      | none =>
        dsimp only
        rw [ih (i + 1) le]
        intro j hj
        have harith : i + 1 + j = i + (j + 1) := by omega
        rw [harith]
        exact hfail (j + 1) (Nat.succ_lt_succ hj)
    | error e =>
      dsimp only
      rw [ih (i + 1) (some e)]
      intro j hj
      have harith : i + 1 + j = i + (j + 1) := by omega
      rw [harith]
      exact hfail (j + 1) (Nat.succ_lt_succ hj)

theorem segLast_succ {Q : Type} (f : ℕ → Except String (Option Q))
    (r : ℕ) : ∀ (i : ℕ) (le : Option String),
    segLast f i (r + 1) le =
      (match f (i + r) with
       | .error e => some e
       | _ => segLast f i r le) := by
  induction r with
  | zero =>
    intro i le
    rw [Nat.add_zero]
    rfl
  | succ r ih =>
    intro i le
    show segLast f (i + 1) (r + 1) _ = _
    rw [ih (i + 1)]
    have harith : i + 1 + r = i + (r + 1) := by omega
    rw [harith]
    rfl

theorem segLast_eq_lastErrorAmong {Q : Type} (f : ℕ → Except String (Option Q))
    (n : ℕ) : segLast f 0 n none = lastErrorAmong f n := by
  induction n with
  | zero => rfl
  | succ n ih =>
    rw [segLast_succ, lastErrorAmong]
    rw [Nat.zero_add, ih]

/-- C4: `fetchQuoteWithRetry` invokes `doFetch` at most `tries` times, at
the consecutive attempt indices starting from 0; it returns the first
truthy quote obtained; the successive waits last `delayMs * 1`,
`delayMs * 2`, … (the k-th wait is `delayMs * (k + 1)`); and when no
attempt yields a truthy quote it throws the last error encountered, or a
fresh `Quote failed after retries` error if none threw. -/
theorem fetchQuoteWithRetry_spec {Q : Type} (f : ℕ → Except String (Option Q))
    (tries delayMs : ℕ) :
    (fetchQuoteWithRetry f tries delayMs).calls.length ≤ tries ∧
    (fetchQuoteWithRetry f tries delayMs).calls =
      List.range (fetchQuoteWithRetry f tries delayMs).calls.length ∧
    (fetchQuoteWithRetry f tries delayMs).sleeps =
      (List.range' 1 (fetchQuoteWithRetry f tries delayMs).sleeps.length).map
        (fun k => delayMs * k) ∧
    (∀ q, (fetchQuoteWithRetry f tries delayMs).result = .ok q →
      ∃ k, k < tries ∧ f k = .ok (some q) ∧
        ∀ j, j < k → isTruthyQuote (f j) = false) ∧
    ((∀ j, j < tries → isTruthyQuote (f j) = false) →
      (fetchQuoteWithRetry f tries delayMs).result =
        .error ((lastErrorAmong f tries).getD "Quote failed after retries")) := by
  unfold fetchQuoteWithRetry
  refine ⟨retryLoop_calls_le f delayMs tries 0 none, ?_, ?_, ?_, ?_⟩
  · rw [List.range_eq_range']
    exact retryLoop_calls_range f delayMs tries 0 none
  · have hs := retryLoop_sleeps_range f delayMs tries 0 none
    simpa using hs
  · intro q h
    have hr := retryLoop_ok_first_truthy f delayMs tries 0 none q h
    simpa using hr
  · intro hfail
    rw [retryLoop_allFail f delayMs tries 0 none (by simpa using hfail)]
    rw [segLast_eq_lastErrorAmong]

/-- Witness for C4: with attempt 0 throwing, attempt 1 returning a falsy
quote and attempt 2 succeeding, the helper returns the quote from
attempt 2, which is the first truthy one. -/
theorem fetchQuoteWithRetry_spec_witness :
    (fetchQuoteWithRetry
        (fun i => if i = 0 then .error "boom"
                  else if i = 1 then .ok none else .ok (some 7)) 3 450).result =
      Except.ok 7 ∧
    ∃ k, k < 3 ∧
      (fun i => if i = 0 then (.error "boom" : Except String (Option ℕ))
                else if i = 1 then .ok none else .ok (some 7)) k = .ok (some 7) ∧
      ∀ j, j < k → isTruthyQuote
        ((fun i => if i = 0 then (.error "boom" : Except String (Option ℕ))
                   else if i = 1 then .ok none else .ok (some 7)) j) = false :=
  ⟨rfl,
   (fetchQuoteWithRetry_spec
      (fun i => if i = 0 then .error "boom"
                else if i = 1 then .ok none else .ok (some 7)) 3 450).2.2.2.1
     7 rfl⟩

/-- C6: whenever the selected input mint equals the selected output
mint, `doSwap` produces exactly one error toast and performs no quote
fetch, no swap-transaction fetch and no send; and the From/To selectors
offer only the SOL mint and the TROLL mint. -/
theorem doSwap_single_pair (env : SwapEnv) (s : SwapState)
    (heq : s.inMintStr = s.outMintStr) :
    (∃ m, doSwap env s = [SwapEvent.toast "error" m]) ∧
    SwapEvent.quoteFetch ∉ doSwap env s ∧
    SwapEvent.swapTxFetch ∉ doSwap env s ∧
    SwapEvent.txSend ∉ doSwap env s ∧
    (∀ solM trollM m, m ∈ fromOptions solM trollM ++ toOptions solM trollM →
      m = solM ∨ m = trollM) := by
  have hsingle : ∃ m, doSwap env s = [SwapEvent.toast "error" m] := by
    unfold doSwap
    cases hpk : s.publicKey with
    | none => exact ⟨_, rfl⟩
    | some pk =>
      cases hp : env.parseFloat (if s.amountStr = "" then "0" else s.amountStr) with
      | num q =>
        dsimp only
        by_cases h1 : q ≤ 0
        · rw [if_pos h1]; exact ⟨_, rfl⟩
        · rw [if_neg h1]
          by_cases h2 : q < minUiForMint s.solMint s.inMintStr
          · rw [if_pos h2]; exact ⟨_, rfl⟩
          · rw [if_neg h2]
            by_cases h3 : amountAtomic env.parseFloat s.amountStr s.inputDecimals = 0
            · rw [if_pos h3]; exact ⟨_, rfl⟩
            · rw [if_neg h3, if_pos heq]; exact ⟨_, rfl⟩
      | nan => exact ⟨_, rfl⟩
      | inf => exact ⟨_, rfl⟩
      | ninf => exact ⟨_, rfl⟩
  obtain ⟨m, hm⟩ := hsingle
  refine ⟨⟨m, hm⟩, ?_, ?_, ?_, ?_⟩
  · rw [hm]; simp
  · rw [hm]; simp
  · rw [hm]; simp
  · intro solM trollM x hx
    simp only [fromOptions, toOptions, List.mem_append, List.mem_cons,
      List.mem_singleton, List.not_mem_nil] at hx
    tauto

/-- Witness for C6: with both selectors on the same mint, `doSwap`
raises a single error toast. -/
theorem doSwap_single_pair_witness :
    ((SwapState.mk "SOLMINT" none "1" "SOLMINT" "SOLMINT" 9 none).inMintStr =
      (SwapState.mk "SOLMINT" none "1" "SOLMINT" "SOLMINT" 9 none).outMintStr) ∧
    ∃ m, doSwap ⟨fun _ => JsNum.nan, none, none, Except.error "e", Except.error "e"⟩
        (SwapState.mk "SOLMINT" none "1" "SOLMINT" "SOLMINT" 9 none) =
      [SwapEvent.toast "error" m] :=
  ⟨rfl,
   (doSwap_single_pair
      ⟨fun _ => JsNum.nan, none, none, Except.error "e", Except.error "e"⟩
      (SwapState.mk "SOLMINT" none "1" "SOLMINT" "SOLMINT" 9 none) rfl).1⟩

/-- C7: the fast 3-second poll is installed exactly when a WebSocket URL
is configured, a wallet is connected, and the subscription attempt
threw; the cleanup removes every installed account-change listener,
clears the poll interval exactly when one was installed, and nulls the
poll reference. -/
theorem ws_fast_poll_fallback (env : WsEnv) :
    ((wsEffectSetup env).fastPollMs.isSome = true ↔
      (env.wsConfigured = true ∧ env.publicKey ≠ none ∧
        wsSubscribeThrew env = true)) ∧
    (∀ ms, (wsEffectSetup env).fastPollMs = some ms → ms = 3000) ∧
    ((wsEffectCleanup (wsEffectSetup env)).fastPollAfter = none) ∧
    (∀ sid, (wsEffectSetup env).solSubId = some sid →
      sid ∈ (wsEffectCleanup (wsEffectSetup env)).removedListeners) ∧
    (∀ tid, (wsEffectSetup env).trollSubId = some tid →
      tid ∈ (wsEffectCleanup (wsEffectSetup env)).removedListeners) ∧
    ((wsEffectCleanup (wsEffectSetup env)).clearedInterval =
      (wsEffectSetup env).fastPollMs.isSome) := by
  obtain ⟨ws, pk, ss, tb, ta, ts⟩ := env
  cases ws with
  | false =>
    simp [wsEffectSetup, wsSubscribeThrew, wsEffectCleanup]
  | true =>
    cases pk with
    | none =>
      simp [wsEffectSetup, wsSubscribeThrew, wsEffectCleanup]
    | some pkv =>
      cases ss with
      | error u =>
        cases u
        simp [wsEffectSetup, wsSubscribeThrew, wsEffectCleanup, Option.toList]
      | ok sid =>
        cases tb with
        | some acct =>
          cases ts with
          | ok tid =>
            simp [wsEffectSetup, wsSubscribeThrew, wsEffectiveTrollAcct,
              wsEffectCleanup, Option.toList]
          | error u =>
            cases u
            simp [wsEffectSetup, wsSubscribeThrew, wsEffectiveTrollAcct,
              wsEffectCleanup, Option.toList]
        | none =>
          cases ta with
          | some acct =>
            cases ts with
            | ok tid =>
              simp [wsEffectSetup, wsSubscribeThrew, wsEffectiveTrollAcct,
                wsEffectCleanup, Option.toList]
            | error u =>
              cases u
              simp [wsEffectSetup, wsSubscribeThrew, wsEffectiveTrollAcct,
                wsEffectCleanup, Option.toList]
          | none =>
            simp [wsEffectSetup, wsSubscribeThrew, wsEffectiveTrollAcct,
              wsEffectCleanup, Option.toList]

/-- Witness for C7: with a configured WebSocket URL, a connected wallet
and a wallet-account subscription that succeeded with id 11, the cleanup
removes listener 11. -/
theorem ws_fast_poll_fallback_witness :
    (wsEffectSetup ⟨true, some "pk", Except.ok 11, some "acct", some "acct",
        Except.error ()⟩).solSubId = some 11 ∧
    11 ∈ (wsEffectCleanup (wsEffectSetup ⟨true, some "pk", Except.ok 11,
        some "acct", some "acct", Except.error ()⟩)).removedListeners :=
  ⟨rfl,
   (ws_fast_poll_fallback ⟨true, some "pk", Except.ok 11, some "acct",
      some "acct", Except.error ()⟩).2.2.2.1 11 rfl⟩

end TrollSwap
